import Mathlib

/-!
# Verification of the JupiterOne Python client's pagination core

Shallow embedding of `jupiterone/client.py` (and the relevant constants of
`jupiterone/constants.py`).  Server interaction is modelled by supplying the
sequence of page responses the mocked server would return, in the order the
client's successive requests would receive them; each engine returns its
aggregated output together with the requests it issued, so that request
counts and orderings are provable.

Strings are modelled as `List Char`.  Python truthiness is modelled
explicitly where the source relies on it (`result_limit`, `max_workers`,
optional values).
-/

namespace JupiterOne

/-- Python whitespace characters matched by `\s` in the source's
`re.search(r"(?i)LIMIT\s+(?P<inline_limit>\d+)", query)` (ASCII range;
queries are ASCII J1QL text). -/
def isPyWhitespace (c : Char) : Bool :=
  c = ' ' || c = '\t' || c = '\n' || c = '\r' || c = '\x0b' || c = '\x0c'

/-- ASCII digit, as matched by `\d`. -/
def isPyDigit (c : Char) : Bool :=
  '0' ≤ c && c ≤ '9'

/-- Numeric value of a digit run, as computed by Python's `int()`. -/
def digitsToNat (ds : List Char) : Nat :=
  ds.foldl (fun a c => a * 10 + (c.toNat - 48)) 0

/-- Case-insensitive literal match: strip `pat` (given lowercase) from the
head of `cs`, comparing lowercased characters, returning the remainder. -/
def stripCI : List Char → List Char → Option (List Char)
  | [], rest => some rest
  | _ :: _, [] => none
  | p :: ps, c :: cs => if c.toLower = p then stripCI ps cs else none

/-- Attempt to match `(?i)LIMIT\s+(\d+)` anchored at the head of `cs`,
returning the captured number. -/
def matchLimitAt (cs : List Char) : Option Nat :=
  match stripCI ['l', 'i', 'm', 'i', 't'] cs with
  | none => none
  | some rest =>
    let ws := rest.takeWhile isPyWhitespace
    if ws.isEmpty then none
    else
      let afterWs := rest.dropWhile isPyWhitespace
      let ds := afterWs.takeWhile isPyDigit
      if ds.isEmpty then none else some (digitsToNat ds)

/-- `re.search(r"(?i)LIMIT\s+(?P<inline_limit>\d+)", query)` followed by
`int(limit_match.group("inline_limit"))`: leftmost match of the pattern,
maximal digit run (client.py lines 190-195). `none` models "no match",
i.e. Python's `result_limit = False`. -/
def parseInlineLimit : List Char → Option Nat
  | [] => none
  | c :: cs =>
    match matchLimitAt (c :: cs) with
    | some n => some n
    | none => parseInlineLimit cs

example : parseInlineLimit (("FIND Host LIMIT 5").data) = some 5 := by decide
example : parseInlineLimit (("find x limit   37 that").data) = some 37 := by decide
example : parseInlineLimit (("FIND unlimited 5").data) = none := by decide
example : parseInlineLimit (("FIND Host").data) = none := by decide
example : parseInlineLimit (("a LIMIT 3 b LIMIT 9").data) = some 3 := by decide
example : parseInlineLimit (("LIMIT 007").data) = some 7 := by decide

/-- The `data` field of one `queryV1` page: either a Tree-shaped graph
object (a dict holding both the `vertices` and the `edges` keys, kept
opaque here) or a list of result records (records kept opaque as `Nat`
identifiers). -/
inductive PageData where
  | tree (t : Nat)
  | records (rs : List Nat)
  deriving DecidableEq, Repr

/-- One server response to a cursor-page fetch: the `data` field plus the
optional `cursor` continuation token (`none` models an absent — or
Python-falsy — `cursor` key; tokens are opaque `Nat`s). -/
structure CursorPage where
  data : PageData
  cursor : Option Nat
  deriving DecidableEq, Repr

/-- What `_cursor_query` / `_limit_and_skip_query` return: either the tree
`data` object as-is, or a `{"data": results}` wrapper around the
aggregated record list. -/
inductive QueryOutput where
  | tree (t : Nat)
  | data (rs : List Nat)
  deriving DecidableEq, Repr

/-- Python truthiness test `if result_limit:` on the parsed inline limit
(`result_limit` is `False` when the regex did not match, an `int`
otherwise; the int `0` is also falsy). -/
def limitTruthy : Option Nat → Bool
  | none => false
  | some n => n != 0

/-- `result_limit and len(results) >= result_limit` (client.py 216, 242, 265). -/
def limitReached (rl : Option Nat) (len : Nat) : Bool :=
  match rl with
  | none => false
  | some n => n != 0 && n ≤ len

/-- `results[:result_limit] if result_limit else results` (client.py 217,
272, 275). -/
def applyLimit (rl : Option Nat) (rs : List Nat) : List Nat :=
  match rl with
  | none => rs
  | some n => if n != 0 then rs.take n else rs

/-- Sequential cursor loop (client.py 259-268) followed by the final
truncation (271-275): fetch the next page, extend `results`, break when
the inline limit is met or the page has no cursor.  `pages` is the
sequence of responses the mocked server returns to the successive
fetches; `acc` is `results` so far and `calls` the number of
`fetch_page` calls already made.  `none` models a scenario the source
does not handle (the mock running out of pages while a cursor is still
pending, or a Tree-shaped page after the first). -/
def cursorSeqLoop (rl : Option Nat) : List CursorPage → List Nat → Nat → Option (QueryOutput × Nat)
  | [], _, _ => none
  | p :: rest, acc, calls =>
    match p.data with
    | .tree _ => none
    | .records rs =>
      let acc2 := acc ++ rs
      if limitReached rl acc2.length then some (.data (applyLimit rl acc2), calls + 1)
      else if p.cursor.isNone then some (.data (applyLimit rl acc2), calls + 1)
      else cursorSeqLoop rl rest acc2 (calls + 1)

/-- Parallel cursor loop (client.py 220-256, exception-free path)
followed by the final truncation (271-275).  The source's bookkeeping
keeps at most ONE future in flight at any time: `future_to_cursor`
starts with a single future, each completed future is popped, and at
most one successor fetch is submitted (the next cursor is only known
once the previous fetch has resolved).  The completion schedule is
therefore deterministic and independent of per-fetch latency, and the
loop is a straight fold over the page sequence: extend `results` with
the completed page, stop when the inline limit is met or no cursor is
returned (cancelling nothing, as nothing else is pending). -/
def cursorParLoop (rl : Option Nat) : List CursorPage → List Nat → Nat → Option (QueryOutput × Nat)
  | [], _, _ => none
  | p :: rest, acc, calls =>
    match p.data with
    | .tree _ => none
    | .records rs =>
      let acc2 := acc ++ rs
      if limitReached rl acc2.length || p.cursor.isNone then
        some (.data (applyLimit rl acc2), calls + 1)
      else cursorParLoop rl rest acc2 (calls + 1)

/-- `if max_workers and max_workers > 1:` (client.py 220), with Python
truthiness on the optional int. -/
def usesParallel : Option Nat → Bool
  | none => false
  | some w => w != 0 && 1 < w

/-- `JupiterOneClient._cursor_query` (client.py 172-275): parse the
inline `LIMIT` from the query text, fetch the first page, return a
Tree-shaped first page as-is, return early when there is no cursor or
the limit is already met, otherwise loop (parallel when
`max_workers > 1`, else sequential).  Returns the result together with
the number of `fetch_page` calls made. -/
def cursorQuery (pages : List CursorPage) (query : List Char) (maxWorkers : Option Nat) :
    Option (QueryOutput × Nat) :=
  let rl := parseInlineLimit query
  match pages with
  | [] => none
  | p :: rest =>
    match p.data with
    | .tree t => some (.tree t, 1)
    | .records rs =>
      if p.cursor.isNone || limitReached rl rs.length then
        some (.data (applyLimit rl rs), 1)
      else if usesParallel maxWorkers then
        cursorParLoop rl rest rs 1
      else
        cursorSeqLoop rl rest rs 1

/-- `J1QL_SKIP_COUNT = 250` (constants.py line 1). -/
def J1QL_SKIP_COUNT : Nat := 250

/-- `J1QL_LIMIT_COUNT = 250` (constants.py line 2). -/
def J1QL_LIMIT_COUNT : Nat := 250

/-- The query text `_limit_and_skip_query` sends for page number `page`:
`f"{query} SKIP {page * skip} LIMIT {limit}"` (client.py 289). -/
def skipLimitRequest (query : List Char) (page skip limit : Nat) : List Char :=
  query ++ ((" SKIP ").data) ++ ((Nat.repr (page * skip)).data)
    ++ ((" LIMIT ").data) ++ ((Nat.repr limit).data)

/-- Loop body of `JupiterOneClient._limit_and_skip_query` (client.py
287-307): request page `page`, return a Tree-shaped page as-is, append
the page's records and stop as soon as a page holds fewer than
`J1QL_SKIP_COUNT` records (the module constant — NOT the `limit`
argument), else advance to the next page.  The issued request texts are
accumulated in `reqs`. -/
def limitAndSkipLoop (query : List Char) (skip limit : Nat) :
    List CursorPage → List Nat → Nat → List (List Char) → Option (QueryOutput × List (List Char))
  | [], _, _, _ => none
  | p :: rest, acc, page, reqs =>
    let reqs2 := reqs ++ [skipLimitRequest query page skip limit]
    match p.data with
    | .tree t => some (.tree t, reqs2)
    | .records rs =>
      if rs.length < J1QL_SKIP_COUNT then some (.data (acc ++ rs), reqs2)
      else limitAndSkipLoop query skip limit rest (acc ++ rs) (page + 1) reqs2

/-- `JupiterOneClient._limit_and_skip_query` (client.py 277-307).  The
defaults of the Python signature are `skip=J1QL_SKIP_COUNT` and
`limit=J1QL_LIMIT_COUNT`.  Returns the result together with the list of
request texts issued. -/
def limitAndSkipQuery (pages : List CursorPage) (query : List Char) (skip limit : Nat) :
    Option (QueryOutput × List (List Char)) :=
  limitAndSkipLoop query skip limit pages [] 0 []

/-- Outcome of `self.session.post`/`get` through the retry-mounted
adapter: either a response (with its status code and the total number of
HTTP attempts made), or the retry budget was exhausted and the library
raises `requests.exceptions.RetryError` (wrapping urllib3's
`MaxRetryError`), recorded with the total number of attempts made. -/
inductive SendOutcome where
  | response (status : Nat) (attempts : Nat)
  | retryError (attempts : Nat)
  deriving DecidableEq, Repr

/-- `status_forcelist=[429, 502, 503, 504]` (client.py 88). -/
def RETRY_STATUS_FORCELIST : List Nat := [429, 502, 503, 504]

/-- A response status that the mounted `Retry` will retry for the given
method: `allowed_methods=["POST", "GET"]` (client.py 89) and the status
forcelist. -/
def retryableStatus (method : List Char) (status : Nat) : Bool :=
  RETRY_STATUS_FORCELIST.contains status
    && (method = ("POST").data || method = ("GET").data)

/-- `total=5` (client.py 86). -/
def RETRY_TOTAL : Nat := 5

/-- Modelled from the urllib3 `Retry` semantics driven by the source's
session configuration (client.py 84-91): `total` is the number of
RETRIES allowed, not of requests; each response whose status is in the
forcelist (for an allowed method) consumes one retry, and when a
retryable response arrives with the budget already at zero the adapter
raises `MaxRetryError` (surfaced by requests as `RetryError`).
`statuses i` is the status code the server returns to the i-th attempt
(0-based); `backoff_factor=1` makes the library sleep exponentially
growing intervals between retries (time is not modelled). -/
def retryLoop (method : List Char) (statuses : Nat → Nat) : Nat → Nat → SendOutcome
  | 0, attempt =>
    if retryableStatus method (statuses attempt) then .retryError (attempt + 1)
    else .response (statuses attempt) (attempt + 1)
  | r + 1, attempt =>
    if retryableStatus method (statuses attempt) then retryLoop method statuses r (attempt + 1)
    else .response (statuses attempt) (attempt + 1)

/-- One `self.session.post`/`self.session.get` call against the
retry-mounted adapter (client.py 84-91, 128-133, 343-348, 363). -/
def sessionRequest (method : List Char) (statuses : Nat → Nat) : SendOutcome :=
  retryLoop method statuses RETRY_TOTAL 0

/-- The exceptions `_execute_query` raises, one constructor per type in
`jupiterone/errors.py`: `JupiterOneClientError` (bad client-side input),
`JupiterOneApiRetryError` (rate-limit / retryable), `JupiterOneApiError`
(generic API failure). -/
inductive J1Error where
  | clientError
  | apiRetryError
  | apiError
  deriving DecidableEq, Repr

/-- Python's substring test `needle in hay`. -/
def pyContains (needle : List Char) : List Char → Bool
  | [] => needle.isEmpty
  | c :: cs => needle.isPrefixOf (c :: cs) || pyContains needle cs

/-- An HTTP response as `_execute_query` inspects it: the status code,
the `errors` array of the parsed JSON body when that key is present
(just the `message` of each entry, as `List Char`), and the rest of the
body kept opaque. -/
structure HttpResponse where
  status : Nat
  gqlErrors : Option (List (List Char))
  body : Nat
  deriving DecidableEq, Repr

/-- The response dispatch of `JupiterOneClient._execute_query`
(client.py 138-170): on 200 with an `errors` array, reclassify a single
error whose message contains "429" as `JupiterOneApiRetryError`, else
raise `JupiterOneApiError`; on 200 without errors return the content;
401 → ApiError; 429/503 → ApiRetryError; 504 → ApiRetryError; 500 →
ApiError; anything else → ApiError with the status and body. -/
def handleResponse (r : HttpResponse) : Except J1Error Nat :=
  if r.status = 200 then
    match r.gqlErrors with
    | some errs =>
      if errs.length = 1 && pyContains (('4' :: '2' :: '9' :: [])) (errs.headD []) then
        .error .apiRetryError
      else .error .apiError
    | none => .ok r.body
  else if r.status = 401 then .error .apiError
  else if r.status = 429 || r.status = 503 then .error .apiRetryError
  else if r.status = 504 then .error .apiRetryError
  else if r.status = 500 then .error .apiError
  else .error .apiError

/-- One JSON body obtained by GETting a deferred-response download URL:
a `status` string, a `data` list (records opaque), and the `cursor` key
(`none` models the key being absent). -/
structure DownloadResponse where
  status : List Char
  data : List Nat
  cursor : Option Nat
  deriving DecidableEq, Repr

/-- The status string the poll loop waits on (client.py 366). -/
def inProgressStatus : List Char := ("IN_PROGRESS").data

/-- The polling loop of `query_with_deferred_response` (client.py
362-369): GET the download URL, break as soon as `status` differs from
`IN_PROGRESS`, else sleep 0.2 seconds and GET again; there is no cap on
the number of polls.  `responses` is the sequence of bodies the mocked
URL returns to the successive GETs.  Returns the accepted (first
non-IN_PROGRESS) response, the number of GET polls made, and the number
of 200 ms sleeps taken; `none` models the mock running out while the
status is still `IN_PROGRESS` (the real loop would poll forever). -/
def pollDownloadUrl : List DownloadResponse → Option (DownloadResponse × Nat × Nat)
  | [] => none
  | r :: rest =>
    if r.status = inProgressStatus then
      match pollDownloadUrl rest with
      | none => none
      | some (f, polls, sleeps) => some (f, polls + 1, sleeps + 1)
    else some (r, 1, 0)

/-- The outer page loop of `query_with_deferred_response` (client.py
323-383, submission-success path): submit the query (one POST per
iteration, the deferred URL obtained), poll the download URL to a
terminal response, extend `all_query_results` with its `data`, and
continue with the new cursor exactly when the body has a `cursor` key,
else stop.  `pageSeq` holds, per outer iteration, the sequence of poll
bodies the download URL returns; `posts` counts submissions made. -/
def deferredLoop : List (List DownloadResponse) → List Nat → Nat → Option (List Nat × Nat)
  | [], _, _ => none
  | polls :: rest, acc, posts =>
    match pollDownloadUrl polls with
    | none => none
    | some (finalResp, _, _) =>
      let acc2 := acc ++ finalResp.data
      match finalResp.cursor with
      | some _ => deferredLoop rest acc2 (posts + 1)
      | none => some (acc2, posts + 1)

/-- `JupiterOneClient.query_with_deferred_response` (client.py 309-383).
The query text is sent in every submission payload and never inspected
(no inline-limit parsing happens in this engine); it is a parameter here
to state exactly that.  Returns `(all_query_results, submissions)`. -/
def queryWithDeferredResponse (pageSeq : List (List DownloadResponse)) (_query : List Char) :
    Option (List Nat × Nat) :=
  deferredLoop pageSeq [] 0

/-- The attribute state a successfully constructed `JupiterOneClient`
holds (the fields the validating setters guard). -/
structure ClientState where
  account : List Char
  token : List Char
  deriving DecidableEq, Repr

/-- The `account` property setter (client.py 98-103): `if not value:
raise JupiterOneClientError("account is required")`.  `none` models
passing `None` (or omitting the argument, whose default is `None`);
Python's `not value` is also true for the empty string. -/
def setAccountAttr (v : Option (List Char)) : Except J1Error (List Char) :=
  match v with
  | none => .error .clientError
  | some s => if s.isEmpty then .error .clientError else .ok s

/-- The `token` property setter (client.py 110-115): `if not value:
raise JupiterOneClientError("token is required")`. -/
def setTokenAttr (v : Option (List Char)) : Except J1Error (List Char) :=
  match v with
  | none => .error .clientError
  | some s => if s.isEmpty then .error .clientError else .ok s

/-- `JupiterOneClient.__init__` (client.py 66-91): assigns
`self.account` then `self.token` (each through its validating setter,
so the first empty value raises `JupiterOneClientError`), then builds
the headers dict and mounts the retry adapter on a fresh session.  The
second component is the list of HTTP requests issued during
construction — the constructor performs no network interaction, so it
is always `[]`. -/
def clientInit (account token : Option (List Char)) :
    Except J1Error ClientState × List (List Char) :=
  (do
    let a ← setAccountAttr account
    let t ← setTokenAttr token
    pure { account := a, token := t }, [])

/-- A page whose `data` field is a record list (not Tree-shaped). -/
def isRecordsPage (p : CursorPage) : Bool :=
  match p.data with
  | .records _ => true
  | .tree _ => false

/-- The record list of a page (empty for a Tree-shaped page). -/
def pageRecords (p : CursorPage) : List Nat :=
  match p.data with
  | .records rs => rs
  | .tree _ => []

/-- All records of a page sequence, in page order. -/
def pagesData (pages : List CursorPage) : List Nat :=
  (pages.map pageRecords).flatten

/-- Every page of the sequence is a record page. -/
def allRecordsPages (pages : List CursorPage) : Bool :=
  pages.all isRecordsPage

/-- A well-formed mocked cursor scenario: at least one page, every page
a record page, every page but the last carrying a cursor, and the last
page carrying none (the terminal page). -/
def wfCursorPages : List CursorPage → Bool
  | [] => false
  | [p] => isRecordsPage p && p.cursor.isNone
  | p :: q :: rest => isRecordsPage p && p.cursor.isSome && wfCursorPages (q :: rest)

/-- A cursor-less record page, as the skip/limit engine's mock serves
them. -/
def recPage (rs : List Nat) : CursorPage :=
  { data := .records rs, cursor := none }

/-- Forget the request texts, keeping the outcome and the request count. -/
def dropRequestTexts : Option (QueryOutput × List (List Char)) → Option (QueryOutput × Nat) :=
  Option.map (fun o => (o.1, o.2.length))

/-- A well-formed mocked deferred-response scenario: `pageSeq` lists the
poll bodies each outer iteration's download URL serves, `ds` the data
list of each iteration's accepted terminal response; every accepted
response but the last carries a `cursor` key, the last does not. -/
inductive DeferredScenario : List (List DownloadResponse) → List (List Nat) → Prop where
  | last (polls : List DownloadResponse) (f : DownloadResponse) (polled slept : Nat)
      (hpoll : pollDownloadUrl polls = some (f, polled, slept)) (hcur : f.cursor = none) :
      DeferredScenario [polls] [f.data]
  | cons (polls : List DownloadResponse) (f : DownloadResponse) (polled slept c : Nat)
      (rest : List (List DownloadResponse)) (ds : List (List Nat))
      (hpoll : pollDownloadUrl polls = some (f, polled, slept)) (hcur : f.cursor = some c)
      (htail : DeferredScenario rest ds) :
      DeferredScenario (polls :: rest) (f.data :: ds)

theorem cursorParLoop_eq_seqLoop (rl : Option Nat) (pages : List CursorPage) :
    ∀ acc calls, cursorParLoop rl pages acc calls = cursorSeqLoop rl pages acc calls := by
  induction pages with
  | nil => intro acc calls; rfl
  | cons p rest ih =>
    intro acc calls
    simp only [cursorParLoop, cursorSeqLoop]
    cases hp : p.data with
    | tree t => rfl
    | records rs =>
      cases h1 : limitReached rl (acc ++ rs).length <;>
        cases h2 : p.cursor.isNone <;>
          simp [h1, h2, ih]

theorem cursorQuery_workers (pages : List CursorPage) (q : List Char) (mw : Option Nat) :
    cursorQuery pages q mw = cursorQuery pages q none := by
  cases pages with
  | nil => rfl
  | cons p rest =>
    simp only [cursorQuery]
    cases hp : p.data with
    | tree t => rfl
    | records rs =>
      cases h1 : (p.cursor.isNone || limitReached (parseInlineLimit q) rs.length) <;>
        cases h2 : usesParallel mw <;>
          simp [h1, h2, usesParallel, cursorParLoop_eq_seqLoop]

theorem pagesData_cons (p : CursorPage) (ps : List CursorPage) :
    pagesData (p :: ps) = pageRecords p ++ pagesData ps := by
  simp [pagesData]

theorem limitReached_of_not_truthy (rl : Option Nat) (h : limitTruthy rl = false) (len : Nat) :
    limitReached rl len = false := by
  cases rl with
  | none => rfl
  | some n => simp [limitTruthy] at h; simp [limitReached, h]

theorem applyLimit_of_not_truthy (rl : Option Nat) (h : limitTruthy rl = false) (rs : List Nat) :
    applyLimit rl rs = rs := by
  cases rl with
  | none => rfl
  | some n => simp [limitTruthy] at h; simp [applyLimit, h]

theorem cursorSeqLoop_wf_exists (pages : List CursorPage) :
    wfCursorPages pages = true → ∀ (rl : Option Nat) (acc : List Nat) (calls : Nat),
      ∃ rs m, cursorSeqLoop rl pages acc calls = some (QueryOutput.data rs, m) := by
  induction pages with
  | nil => intro h _ _ _; simp [wfCursorPages] at h
  | cons p rest ih =>
    intro h rl acc calls
    cases hp : p.data with
    | tree t =>
      exfalso
      cases rest <;> simp [wfCursorPages, isRecordsPage, hp] at h
    | records rs =>
      simp only [cursorSeqLoop, hp]
      cases h1 : limitReached rl (acc ++ rs).length with
      | true => exact ⟨applyLimit rl (acc ++ rs), calls + 1, by simp [h1]⟩
      | false =>
        cases rest with
        | nil =>
          have h2 : p.cursor.isNone = true := by
            simp only [wfCursorPages, Bool.and_eq_true] at h
            exact h.2
          exact ⟨applyLimit rl (acc ++ rs), calls + 1, by simp [h1, h2]⟩
        | cons q rest2 =>
          simp only [wfCursorPages, Bool.and_eq_true] at h
          have h2 : p.cursor.isSome = true := h.1.2
          have h2n : p.cursor.isNone = false := by
            cases hc : p.cursor with
            | none => rw [hc] at h2; simp at h2
            | some c => rfl
          have := ih h.2 rl (acc ++ rs) (calls + 1)
          simpa [h1, h2n] using this

theorem applyLimit_length_le (n : Nat) (hn : n ≠ 0) (zs : List Nat) :
    (applyLimit (some n) zs).length ≤ n := by
  have hb : (n != 0) = true := by simpa using hn
  simp only [applyLimit, hb, if_true, List.length_take]
  exact Nat.min_le_left _ _

theorem cursorSeqLoop_limit_bound (n : Nat) (hn : n ≠ 0) (pages : List CursorPage) :
    ∀ acc calls rs m,
      cursorSeqLoop (some n) pages acc calls = some (QueryOutput.data rs, m) →
      rs.length ≤ n := by
  induction pages with
  | nil => intro acc calls rs m h; simp [cursorSeqLoop] at h
  | cons p rest ih =>
    intro acc calls rs m h
    simp only [cursorSeqLoop] at h
    cases hp : p.data with
    | tree t => rw [hp] at h; simp at h
    | records xs =>
      rw [hp] at h
      cases h1 : limitReached (some n) (acc ++ xs).length with
      | true =>
        simp only [h1, if_true, Option.some.injEq, Prod.mk.injEq, QueryOutput.data.injEq] at h
        exact h.1 ▸ applyLimit_length_le n hn _
      | false =>
        cases h2 : p.cursor.isNone with
        | true =>
          simp only [h1, h2, Bool.false_eq_true, if_false, if_true, Option.some.injEq,
            Prod.mk.injEq, QueryOutput.data.injEq] at h
          exact h.1 ▸ applyLimit_length_le n hn _
        | false =>
          simp only [h1, h2, Bool.false_eq_true, if_false] at h
          exact ih _ _ _ _ h

theorem cursorSeqLoop_stops_early (n : Nat) (hn : n ≠ 0) (pre : List CursorPage) :
    pre ≠ [] → allRecordsPages pre = true →
    ∀ (acc : List Nat) (calls : Nat) (rest : List CursorPage),
      n ≤ acc.length + (pagesData pre).length →
      cursorSeqLoop (some n) (pre ++ rest) acc calls = cursorSeqLoop (some n) pre acc calls := by
  induction pre with
  | nil => intro hne; exact absurd rfl hne
  | cons p pre2 ih =>
    intro _ hall acc calls rest hsum
    simp only [allRecordsPages, List.all_cons, Bool.and_eq_true] at hall
    cases hp : p.data with
    | tree t => simp [isRecordsPage, hp] at hall
    | records rs =>
      simp only [List.cons_append, cursorSeqLoop, hp]
      cases h1 : limitReached (some n) (acc ++ rs).length with
      | true => simp [h1]
      | false =>
        cases h2 : p.cursor.isNone with
        | true => simp [h1, h2]
        | false =>
          simp only [h1, h2, Bool.false_eq_true, if_false]
          have hb : (n != 0) = true := by simpa using hn
          have hlt : acc.length + rs.length < n := by
            simp only [limitReached, hb, Bool.true_and, decide_eq_false_iff_not, Nat.not_le,
              List.length_append] at h1
            exact h1
          have hsum2 : n ≤ (acc ++ rs).length + (pagesData pre2).length := by
            rw [pagesData_cons] at hsum
            simp only [pageRecords, hp, List.length_append] at hsum ⊢
            omega
          have hne2 : pre2 ≠ [] := by
            intro he
            rw [he] at hsum2
            simp only [pagesData, List.map_nil, List.flatten_nil, List.length_nil,
              List.length_append, Nat.add_zero] at hsum2
            omega
          exact ih hne2 hall.2 (acc ++ rs) (calls + 1) rest hsum2

theorem cursorSeqLoop_no_limit (rl : Option Nat) (hrl : limitTruthy rl = false)
    (pages : List CursorPage) :
    wfCursorPages pages = true →
    ∀ (acc : List Nat) (calls : Nat),
      cursorSeqLoop rl pages acc calls
        = some (QueryOutput.data (acc ++ pagesData pages), calls + pages.length) := by
  induction pages with
  | nil => intro h; simp [wfCursorPages] at h
  | cons p rest ih =>
    intro h acc calls
    cases hp : p.data with
    | tree t =>
      exfalso
      cases rest <;> simp [wfCursorPages, isRecordsPage, hp] at h
    | records rs =>
      simp only [cursorSeqLoop, hp]
      have h1 := limitReached_of_not_truthy rl hrl (acc ++ rs).length
      cases rest with
      | nil =>
        have h2 : p.cursor.isNone = true := by
          simp only [wfCursorPages, Bool.and_eq_true] at h
          exact h.2
        simp [h1, h2, applyLimit_of_not_truthy rl hrl, pagesData_cons, pageRecords, hp, pagesData]
      | cons q rest2 =>
        simp only [wfCursorPages, Bool.and_eq_true] at h
        have h2 : p.cursor.isSome = true := h.1.2
        have h2n : p.cursor.isNone = false := by
          cases hc : p.cursor with
          | none => rw [hc] at h2; simp at h2
          | some c => rfl
        rw [h1, h2n]
        simp only [Bool.false_eq_true, if_false]
        rw [ih h.2 (acc ++ rs) (calls + 1)]
        simp only [pagesData_cons, pageRecords, hp, List.append_assoc, List.length_cons,
          Option.some.injEq, Prod.mk.injEq, QueryOutput.data.injEq, true_and]
        omega

theorem cursorQuery_wf_exists (pages : List CursorPage) (q : List Char) (mw : Option Nat)
    (h : wfCursorPages pages = true) :
    ∃ rs m, cursorQuery pages q mw = some (QueryOutput.data rs, m) := by
  rw [cursorQuery_workers]
  cases pages with
  | nil => simp [wfCursorPages] at h
  | cons p rest =>
    cases hp : p.data with
    | tree t =>
      exfalso
      cases rest <;> simp [wfCursorPages, isRecordsPage, hp] at h
    | records rs =>
      simp only [cursorQuery, hp]
      cases h1 : (p.cursor.isNone || limitReached (parseInlineLimit q) rs.length) with
      | true => exact ⟨applyLimit (parseInlineLimit q) rs, 1, by simp [h1]⟩
      | false =>
        cases rest with
        | nil =>
          exfalso
          simp only [wfCursorPages, Bool.and_eq_true] at h
          simp [h.2] at h1
        | cons p2 rest2 =>
          simp only [wfCursorPages, Bool.and_eq_true] at h
          have := cursorSeqLoop_wf_exists (p2 :: rest2) h.2 (parseInlineLimit q) rs 1
          simpa [h1, usesParallel] using this

/-- C1: for every mocked sequence of cursor pages ending in a terminal
no-cursor page, `_cursor_query` with `max_workers > 1` returns a result
list identical in content and order to the sequential engine's on the
same page sequence.  Latency cannot influence the parallel engine: its
bookkeeping holds at most one in-flight future at any time (the next
cursor is only known once the previous fetch resolves), so its schedule
is deterministic — see `cursorParLoop`. -/
theorem cursor_parallel_matches_sequential (pages : List CursorPage) (q : List Char) (w : Nat)
    (hwf : wfCursorPages pages = true) (_hw : 1 < w) :
    cursorQuery pages q (some w) = cursorQuery pages q none ∧
    ∃ rs n, cursorQuery pages q none = some (QueryOutput.data rs, n) :=
  ⟨cursorQuery_workers pages q (some w), cursorQuery_wf_exists pages q none hwf⟩

theorem cursor_parallel_matches_sequential_witness :
    cursorQuery
        [{ data := PageData.records [1, 2], cursor := some 5 },
         { data := PageData.records [3, 4], cursor := some 6 },
         { data := PageData.records [5], cursor := none }] (("FIND Host").data) (some 4)
      = cursorQuery
        [{ data := PageData.records [1, 2], cursor := some 5 },
         { data := PageData.records [3, 4], cursor := some 6 },
         { data := PageData.records [5], cursor := none }] (("FIND Host").data) none ∧
    ∃ rs n, cursorQuery
        [{ data := PageData.records [1, 2], cursor := some 5 },
         { data := PageData.records [3, 4], cursor := some 6 },
         { data := PageData.records [5], cursor := none }] (("FIND Host").data) none
      = some (QueryOutput.data rs, n) :=
  cursor_parallel_matches_sequential _ _ 4 (by decide) (by decide)

/-- C2 counterexample: the claim quantifies over EVERY matching
`LIMIT <n>` pattern, but for `LIMIT 0` the parsed value `0` is falsy in
Python (`if result_limit:`), so no truncation is applied: the engine
returns 1 record where the claim demands a list of length at most 0. -/
theorem cursor_limit_zero_not_truncated :
    parseInlineLimit (("FIND X LIMIT 0").data) = some 0 ∧
    cursorQuery [{ data := PageData.records [7], cursor := none }]
        (("FIND X LIMIT 0").data) none = some (QueryOutput.data [7], 1) ∧
    ¬ (([7] : List Nat).length ≤ 0) := by
  refine ⟨by decide, by decide, by decide⟩

theorem applyLimit_of_ne_zero (n : Nat) (hn : n ≠ 0) (zs : List Nat) :
    applyLimit (some n) zs = zs.take n := by
  have hb : (n != 0) = true := by simpa using hn
  simp [applyLimit, hb]

theorem cursorSeqLoop_take (n : Nat) (hn : n ≠ 0) (pages : List CursorPage) :
    ∀ (acc : List Nat) (calls : Nat) (rs : List Nat) (m : Nat),
      cursorSeqLoop (some n) pages acc calls = some (QueryOutput.data rs, m) →
      calls < m ∧ rs = (acc ++ pagesData (pages.take (m - calls))).take n := by
  induction pages with
  | nil => intro acc calls rs m h; simp [cursorSeqLoop] at h
  | cons p rest ih =>
    intro acc calls rs m h
    simp only [cursorSeqLoop] at h
    cases hp : p.data with
    | tree t => rw [hp] at h; simp at h
    | records xs =>
      rw [hp] at h
      cases h1 : limitReached (some n) (acc ++ xs).length with
      | true =>
        simp only [h1, if_true, Option.some.injEq, Prod.mk.injEq, QueryOutput.data.injEq] at h
        obtain ⟨hrs, hm⟩ := h
        subst hm
        refine ⟨by omega, ?_⟩
        rw [← hrs, applyLimit_of_ne_zero n hn,
          show calls + 1 - calls = 1 from by omega,
          show (p :: rest).take 1 = [p] from rfl]
        simp [pagesData, pageRecords, hp]
      | false =>
        cases h2 : p.cursor.isNone with
        | true =>
          simp only [h1, h2, Bool.false_eq_true, if_false, if_true, Option.some.injEq,
            Prod.mk.injEq, QueryOutput.data.injEq] at h
          obtain ⟨hrs, hm⟩ := h
          subst hm
          refine ⟨by omega, ?_⟩
          rw [← hrs, applyLimit_of_ne_zero n hn,
            show calls + 1 - calls = 1 from by omega,
            show (p :: rest).take 1 = [p] from rfl]
          simp [pagesData, pageRecords, hp]
        | false =>
          simp only [h1, h2, Bool.false_eq_true, if_false] at h
          obtain ⟨hlt, hrs⟩ := ih (acc ++ xs) (calls + 1) rs m h
          refine ⟨by omega, ?_⟩
          have htake : (p :: rest).take (m - calls) = p :: rest.take (m - (calls + 1)) := by
            have hmc : m - calls = (m - (calls + 1)) + 1 := by omega
            rw [hmc]
            simp [List.take_succ_cons]
          rw [hrs, htake]
          simp [pagesData_cons, pageRecords, hp, List.append_assoc]

theorem cursorQuery_take (n : Nat) (hn : n ≠ 0) (pages : List CursorPage) (q : List Char)
    (mw : Option Nat) (rs : List Nat) (m : Nat) (hq : parseInlineLimit q = some n)
    (heq : cursorQuery pages q mw = some (QueryOutput.data rs, m)) :
    rs = (pagesData (pages.take m)).take n := by
  rw [cursorQuery_workers] at heq
  cases pages with
  | nil => simp [cursorQuery] at heq
  | cons p rest =>
    cases hp : p.data with
    | tree t =>
      rw [show cursorQuery (p :: rest) q none = some (QueryOutput.tree t, 1) by
        simp [cursorQuery, hp]] at heq
      simp at heq
    | records xs =>
      simp only [cursorQuery, hp, hq] at heq
      cases h1 : (p.cursor.isNone || limitReached (some n) xs.length) with
      | true =>
        rw [h1] at heq
        simp only [if_true, Option.some.injEq, Prod.mk.injEq, QueryOutput.data.injEq] at heq
        obtain ⟨hrs, hm⟩ := heq
        subst hm
        rw [← hrs, applyLimit_of_ne_zero n hn, show (p :: rest).take 1 = [p] from rfl]
        simp [pagesData, pageRecords, hp]
      | false =>
        rw [h1] at heq
        simp only [Bool.false_eq_true, if_false, usesParallel] at heq
        obtain ⟨hlt, hrs⟩ := cursorSeqLoop_take n hn rest xs 1 rs m heq
        have htake : (p :: rest).take m = p :: rest.take (m - 1) := by
          cases m with
          | zero => omega
          | succ k => simp [List.take_succ_cons]
        rw [hrs, htake]
        simp [pagesData_cons, pageRecords, hp]

theorem cursorQuery_no_truthy_limit (pages : List CursorPage) (q : List Char) (mw : Option Nat)
    (hrl : limitTruthy (parseInlineLimit q) = false) (hwf : wfCursorPages pages = true) :
    cursorQuery pages q mw = some (QueryOutput.data (pagesData pages), pages.length) := by
  rw [cursorQuery_workers]
  cases pages with
  | nil => simp [wfCursorPages] at hwf
  | cons p rest =>
    cases hp : p.data with
    | tree t =>
      exfalso
      cases rest <;> simp [wfCursorPages, isRecordsPage, hp] at hwf
    | records xs =>
      simp only [cursorQuery, hp]
      have h1 := limitReached_of_not_truthy (parseInlineLimit q) hrl xs.length
      cases rest with
      | nil =>
        have h2 : p.cursor.isNone = true := by
          simp only [wfCursorPages, Bool.and_eq_true] at hwf
          exact hwf.2
        simp [h1, h2, applyLimit_of_not_truthy _ hrl, pagesData, pageRecords, hp]
      | cons p2 rest2 =>
        simp only [wfCursorPages, Bool.and_eq_true] at hwf
        have h2 : p.cursor.isSome = true := hwf.1.2
        have h2n : p.cursor.isNone = false := by
          cases hc : p.cursor with
          | none => rw [hc] at h2; simp at h2
          | some c => rfl
        rw [h1, h2n]
        simp only [Bool.or_self, Bool.false_eq_true, if_false, usesParallel]
        rw [cursorSeqLoop_no_limit _ hrl (p2 :: rest2) hwf.2 xs 1]
        simp only [pagesData_cons, pageRecords, hp, List.length_cons,
          Option.some.injEq, Prod.mk.injEq, QueryOutput.data.injEq, true_and]
        omega

/-- C2 (amended): for every query whose text matches `LIMIT <n>`
(case-insensitive, first match) with n ≥ 1, the cursor engine returns
exactly the first n entries of the aggregated record list of the m
pages it consumed (hence a list of length at most n, in page order);
pagination stops once the accumulated length reaches n (the engine's
output never depends on pages past the prefix that reaches n); with no
match, the full aggregated list is returned untruncated; and a match
with n = 0 is treated as no limit (Python zero-falsiness of
`result_limit`): the full aggregated list is returned, exactly as in
the no-match case. -/
theorem cursor_inline_limit_amended :
    (∀ (pages : List CursorPage) (q : List Char) (n : Nat) (mw : Option Nat)
        (rs : List Nat) (m : Nat),
        parseInlineLimit q = some n → 1 ≤ n →
        cursorQuery pages q mw = some (QueryOutput.data rs, m) →
        rs = (pagesData (pages.take m)).take n ∧ rs.length ≤ n) ∧
    (∀ (q : List Char) (n : Nat) (pre rest rest2 : List CursorPage) (mw : Option Nat),
        parseInlineLimit q = some n → 1 ≤ n → allRecordsPages pre = true →
        n ≤ (pagesData pre).length →
        cursorQuery (pre ++ rest) q mw = cursorQuery (pre ++ rest2) q mw) ∧
    (∀ (pages : List CursorPage) (q : List Char) (mw : Option Nat),
        parseInlineLimit q = none → wfCursorPages pages = true →
        cursorQuery pages q mw = some (QueryOutput.data (pagesData pages), pages.length)) ∧
    (∀ (pages : List CursorPage) (q : List Char) (mw : Option Nat),
        parseInlineLimit q = some 0 → wfCursorPages pages = true →
        cursorQuery pages q mw = some (QueryOutput.data (pagesData pages), pages.length)) := by
  refine ⟨?_, ?_, ?_, ?_⟩
  · intro pages q n mw rs m hq hn heq
    have hn0 : n ≠ 0 := by omega
    have hcontent := cursorQuery_take n hn0 pages q mw rs m hq heq
    refine ⟨hcontent, ?_⟩
    rw [hcontent]
    simp only [List.length_take]
    omega
  · intro q n pre rest rest2 mw hq hn hall hsum
    rw [cursorQuery_workers _ _ mw, cursorQuery_workers (pre ++ rest2) q mw]
    have hn0 : n ≠ 0 := by omega
    cases pre with
    | nil =>
      exfalso
      simp [pagesData] at hsum
      omega
    | cons p pre2 =>
      simp only [allRecordsPages, List.all_cons, Bool.and_eq_true] at hall
      cases hp : p.data with
      | tree t => simp [isRecordsPage, hp] at hall
      | records xs =>
        simp only [List.cons_append, cursorQuery, hp, hq]
        cases h1 : (p.cursor.isNone || limitReached (some n) xs.length) with
        | true => simp [h1]
        | false =>
          simp only [Bool.false_eq_true, if_false, usesParallel]
          have hxslt : xs.length < n := by
            simp only [Bool.or_eq_false_iff] at h1
            have := h1.2
            have hb : (n != 0) = true := by simpa using hn0
            simp only [limitReached, hb, Bool.true_and, decide_eq_false_iff_not,
              Nat.not_le] at this
            exact this
          have hsum2 : n ≤ xs.length + (pagesData pre2).length := by
            rw [pagesData_cons] at hsum
            simp only [pageRecords, hp, List.length_append] at hsum
            exact hsum
          have hne2 : pre2 ≠ [] := by
            intro he
            rw [he] at hsum2
            simp only [pagesData, List.map_nil, List.flatten_nil, List.length_nil,
              Nat.add_zero] at hsum2
            omega
          rw [cursorSeqLoop_stops_early n hn0 pre2 hne2 hall.2 xs 1 rest (by omega),
            cursorSeqLoop_stops_early n hn0 pre2 hne2 hall.2 xs 1 rest2 (by omega)]
  · intro pages q mw hq hwf
    exact cursorQuery_no_truthy_limit pages q mw (by rw [hq]; rfl) hwf
  · intro pages q mw hq hwf
    exact cursorQuery_no_truthy_limit pages q mw (by rw [hq]; rfl) hwf

theorem cursor_inline_limit_amended_witness :
    parseInlineLimit (("FIND X LIMIT 2").data) = some 2 ∧
    cursorQuery [{ data := PageData.records [10, 20, 30], cursor := none }]
        (("FIND X LIMIT 2").data) none = some (QueryOutput.data [10, 20], 1) ∧
    ([10, 20] : List Nat)
      = (pagesData ([{ data := PageData.records [10, 20, 30], cursor := none }].take 1)).take 2 ∧
    ([10, 20] : List Nat).length ≤ 2 ∧
    parseInlineLimit (("FIND Y LIMIT 0").data) = some 0 ∧
    cursorQuery [{ data := PageData.records [4, 5, 6], cursor := none }]
        (("FIND Y LIMIT 0").data) none
      = some (QueryOutput.data
          (pagesData [{ data := PageData.records [4, 5, 6], cursor := none }]), 1) :=
  ⟨by decide, by decide,
    (cursor_inline_limit_amended.1 [{ data := PageData.records [10, 20, 30], cursor := none }]
      (("FIND X LIMIT 2").data) 2 none [10, 20] 1 (by decide) (by decide) (by decide)).1,
    (cursor_inline_limit_amended.1 [{ data := PageData.records [10, 20, 30], cursor := none }]
      (("FIND X LIMIT 2").data) 2 none [10, 20] 1 (by decide) (by decide) (by decide)).2,
    by decide,
    cursor_inline_limit_amended.2.2.2 [{ data := PageData.records [4, 5, 6], cursor := none }]
      (("FIND Y LIMIT 0").data) none (by decide) (by decide)⟩

/-- C3: a first-page response whose data object carries both the
`vertices` and `edges` keys is returned as-is by both the cursor engine
and the skip/limit engine, with exactly one request issued, no follow-up
page requests, and no limit truncation regardless of the query text
(which may contain a `LIMIT <n>` pattern) or worker count. -/
theorem tree_first_page_short_circuit (t : Nat) (c : Option Nat) (rest : List CursorPage)
    (q : List Char) (mw : Option Nat) (skip limit : Nat) :
    cursorQuery ({ data := PageData.tree t, cursor := c } :: rest) q mw
      = some (QueryOutput.tree t, 1) ∧
    limitAndSkipQuery ({ data := PageData.tree t, cursor := c } :: rest) q skip limit
      = some (QueryOutput.tree t, [skipLimitRequest q 0 skip limit]) := by
  constructor
  · simp [cursorQuery]
  · simp [limitAndSkipQuery, limitAndSkipLoop]

theorem lsLoop_runs (q : List Char) (skip limit : Nat) (pre : List (List Nat)) :
    (∀ rs ∈ pre, J1QL_SKIP_COUNT ≤ rs.length) →
    ∀ (last : List Nat), last.length < J1QL_SKIP_COUNT →
    ∀ (suffix : List CursorPage) (acc : List Nat) (page : Nat) (reqs : List (List Char)),
      ∃ reqs2,
        limitAndSkipLoop q skip limit (pre.map recPage ++ recPage last :: suffix) acc page reqs
          = some (QueryOutput.data (acc ++ pre.flatten ++ last), reqs2)
        ∧ reqs2.length = reqs.length + pre.length + 1 := by
  induction pre with
  | nil =>
    intro _ last hlast suffix acc page reqs
    refine ⟨reqs ++ [skipLimitRequest q page skip limit], ?_, by simp⟩
    simp [limitAndSkipLoop, recPage, hlast]
  | cons rs0 pre2 ih =>
    intro hall last hlast suffix acc page reqs
    have h0 : J1QL_SKIP_COUNT ≤ rs0.length := hall rs0 (by simp)
    have hnot : ¬ (rs0.length < J1QL_SKIP_COUNT) := by omega
    obtain ⟨reqs2, heq, hlen⟩ := ih (fun rs h => hall rs (by simp [h])) last hlast suffix
      (acc ++ rs0) (page + 1) (reqs ++ [skipLimitRequest q page skip limit])
    refine ⟨reqs2, ?_, by simp only [List.length_append, List.length_cons,
      List.length_nil, List.length_cons] at hlen ⊢; omega⟩
    have hstep : limitAndSkipLoop q skip limit
        ((rs0 :: pre2).map recPage ++ recPage last :: suffix) acc page reqs
        = limitAndSkipLoop q skip limit (pre2.map recPage ++ recPage last :: suffix)
          (acc ++ rs0) (page + 1) (reqs ++ [skipLimitRequest q page skip limit]) := by
      simp only [List.map_cons, List.cons_append, limitAndSkipLoop, recPage]
      rw [if_neg hnot]
      rfl
    rw [hstep, heq]
    simp [List.append_assoc]

theorem lsLoop_all_long (q : List Char) (skip limit : Nat) (pre : List (List Nat)) :
    (∀ rs ∈ pre, J1QL_SKIP_COUNT ≤ rs.length) →
    ∀ (acc : List Nat) (page : Nat) (reqs : List (List Char)),
      limitAndSkipLoop q skip limit (pre.map recPage) acc page reqs = none := by
  induction pre with
  | nil => intro _ acc page reqs; rfl
  | cons rs0 pre2 ih =>
    intro hall acc page reqs
    have h0 : J1QL_SKIP_COUNT ≤ rs0.length := hall rs0 (by simp)
    have hnot : ¬ (rs0.length < J1QL_SKIP_COUNT) := by omega
    simp only [List.map_cons, limitAndSkipLoop, recPage]
    rw [if_neg hnot]
    exact ih (fun rs h => hall rs (by simp [h])) (acc ++ rs0) (page + 1) _

/-- C4: `_limit_and_skip_query` stops exactly at the first page holding
fewer than `J1QL_SKIP_COUNT = 250` records (not at an empty page): every
page of at least 250 records makes it request another page (a mock
serving only such pages is exhausted, first conjunct), the first shorter
page — empty or not — ends the loop with all records accumulated
(second conjunct), and the 250/250/250/100 scenario makes exactly 4
requests returning 850 records (third conjunct). -/
theorem skip_limit_terminates_on_short_page :
    (∀ (q : List Char) (skip limit : Nat) (pre : List (List Nat)),
        (∀ rs ∈ pre, J1QL_SKIP_COUNT ≤ rs.length) →
        limitAndSkipQuery (pre.map recPage) q skip limit = none) ∧
    (∀ (q : List Char) (skip limit : Nat) (pre : List (List Nat)) (last : List Nat)
        (suffix : List CursorPage),
        (∀ rs ∈ pre, J1QL_SKIP_COUNT ≤ rs.length) → last.length < J1QL_SKIP_COUNT →
        ∃ reqs,
          limitAndSkipQuery (pre.map recPage ++ recPage last :: suffix) q skip limit
            = some (QueryOutput.data (pre.flatten ++ last), reqs)
          ∧ reqs.length = pre.length + 1) ∧
    (∃ reqs,
        limitAndSkipQuery
          (List.map recPage
            [List.replicate 250 0, List.replicate 250 0, List.replicate 250 0,
              List.replicate 100 0]) (("FIND Host").data) 250 250
          = some (QueryOutput.data (List.replicate 850 0), reqs)
        ∧ reqs.length = 4) := by
  refine ⟨?_, ?_, ?_⟩
  · intro q skip limit pre hall
    exact lsLoop_all_long q skip limit pre hall [] 0 []
  · intro q skip limit pre last suffix hall hlast
    obtain ⟨reqs2, heq, hlen⟩ := lsLoop_runs q skip limit pre hall last hlast suffix [] 0 []
    refine ⟨reqs2, ?_, by simpa using hlen⟩
    simpa [limitAndSkipQuery] using heq
  · have hall : ∀ r2 ∈ [List.replicate 250 (0 : Nat), List.replicate 250 0,
        List.replicate 250 0], J1QL_SKIP_COUNT ≤ r2.length := by
      intro r2 h
      simp only [List.mem_cons, List.not_mem_nil, or_false] at h
      rcases h with h | h | h <;> subst h <;>
        simp only [List.length_replicate, J1QL_SKIP_COUNT, le_refl]
    have hshort : (List.replicate 100 (0 : Nat)).length < J1QL_SKIP_COUNT := by
      simp only [List.length_replicate, J1QL_SKIP_COUNT]
      omega
    obtain ⟨reqs2, heq, hlen⟩ := lsLoop_runs (("FIND Host").data) 250 250
      [List.replicate 250 0, List.replicate 250 0, List.replicate 250 0] hall
      (List.replicate 100 0) hshort [] [] 0 []
    refine ⟨reqs2, ?_, by
      rw [hlen]
      simp only [List.length_nil, List.length_cons]⟩
    have hpages : (List.map recPage
        [List.replicate 250 (0 : Nat), List.replicate 250 0, List.replicate 250 0,
          List.replicate 100 0])
        = (List.map recPage [List.replicate 250 (0 : Nat), List.replicate 250 0,
            List.replicate 250 0]) ++ recPage (List.replicate 100 0) :: [] := by
      simp only [List.map_cons, List.map_nil, List.cons_append, List.nil_append]
    simp only [limitAndSkipQuery]
    rw [hpages, heq]
    simp only [List.nil_append, Option.some.injEq, Prod.mk.injEq, QueryOutput.data.injEq,
      and_true, true_and]
    simp only [List.flatten_cons, List.flatten_nil, List.append_nil, List.append_assoc,
      ← List.replicate_add]

theorem skip_limit_terminates_on_short_page_witness :
    ∃ reqs,
      limitAndSkipQuery (List.map recPage [List.replicate 250 5] ++ recPage [9] :: [])
          (("FIND Host").data) 250 250
        = some (QueryOutput.data (List.flatten [List.replicate 250 5] ++ [9]), reqs)
      ∧ reqs.length = ([List.replicate 250 5] : List (List Nat)).length + 1 :=
  skip_limit_terminates_on_short_page.2.1 (("FIND Host").data) 250 250 [List.replicate 250 5]
    [9] []
    (by
      intro rs h
      simp only [List.mem_cons, List.not_mem_nil, or_false] at h
      subst h
      simp only [List.length_replicate, J1QL_SKIP_COUNT, le_refl])
    (by
      simp only [List.length_cons, List.length_nil, J1QL_SKIP_COUNT]
      omega)

theorem lsLoop_limit_arg (q : List Char) (skip l1 l2 : Nat) (pages : List CursorPage) :
    ∀ (acc : List Nat) (page : Nat) (reqs1 reqs2 : List (List Char)),
      reqs1.length = reqs2.length →
      dropRequestTexts (limitAndSkipLoop q skip l1 pages acc page reqs1)
        = dropRequestTexts (limitAndSkipLoop q skip l2 pages acc page reqs2) := by
  induction pages with
  | nil => intro acc page r1 r2 h; rfl
  | cons p rest ih =>
    intro acc page r1 r2 h
    simp only [limitAndSkipLoop]
    cases hp : p.data with
    | tree t => simp [dropRequestTexts, h]
    | records rs =>
      by_cases hlen : rs.length < J1QL_SKIP_COUNT
      · simp [hlen, dropRequestTexts, h]
      · simp only [hlen, if_false]
        exact ih (acc ++ rs) (page + 1) _ _ (by simp [h])

/-- C10: the skip/limit engine's termination threshold is the module
constant `J1QL_SKIP_COUNT = 250`, never the caller's `limit` argument:
its outcome and request count are identical for any two `limit`
arguments (first conjunct, only request texts differ), and a call whose
`limit` is below 250 issues exactly one request and returns only the
first page whenever that page holds at most `limit` records, even
though the server has more data (second conjunct, `suffix` arbitrary). -/
theorem skip_limit_ignores_limit_argument :
    (∀ (pages : List CursorPage) (q : List Char) (skip l1 l2 : Nat),
        dropRequestTexts (limitAndSkipQuery pages q skip l1)
          = dropRequestTexts (limitAndSkipQuery pages q skip l2)) ∧
    (∀ (rs : List Nat) (c : Option Nat) (suffix : List CursorPage) (q : List Char)
        (skip limit : Nat),
        limit < J1QL_SKIP_COUNT → rs.length ≤ limit →
        limitAndSkipQuery ({ data := PageData.records rs, cursor := c } :: suffix) q skip limit
          = some (QueryOutput.data rs, [skipLimitRequest q 0 skip limit])) := by
  constructor
  · intro pages q skip l1 l2
    exact lsLoop_limit_arg q skip l1 l2 pages [] 0 [] [] rfl
  · intro rs c suffix q skip limit h1 h2
    have hlt : rs.length < J1QL_SKIP_COUNT := by omega
    simp [limitAndSkipQuery, limitAndSkipLoop, hlt]

theorem skip_limit_ignores_limit_argument_witness :
    limitAndSkipQuery
        ({ data := PageData.records [1, 2], cursor := none }
          :: [recPage (List.replicate 250 0)]) (("FIND Host").data) 250 5
      = some (QueryOutput.data [1, 2], [skipLimitRequest (("FIND Host").data) 0 250 5]) :=
  skip_limit_ignores_limit_argument.2 [1, 2] none [recPage (List.replicate 250 0)]
    (("FIND Host").data) 250 5 (by decide) (by decide)

theorem retryLoop_exhausts (method : List Char) (statuses : Nat → Nat)
    (hm : method = ("POST").data ∨ method = ("GET").data)
    (hs : ∀ i, RETRY_STATUS_FORCELIST.contains (statuses i) = true) :
    ∀ (r attempt : Nat), retryLoop method statuses r attempt
      = SendOutcome.retryError (attempt + r + 1) := by
  have hret : ∀ i, retryableStatus method (statuses i) = true := by
    intro i
    have hmem : statuses i ∈ RETRY_STATUS_FORCELIST := by
      have h2 := hs i
      simpa using h2
    rcases hm with h | h <;> subst h <;> simp [retryableStatus, hmem]
  intro r
  induction r with
  | zero => intro attempt; simp [retryLoop, hret]
  | succ k ih =>
    intro attempt
    simp only [retryLoop, hret, if_true]
    rw [ih (attempt + 1)]
    congr 1
    omega

/-- C5 counterexample: the claim says an always-503 server is attempted
exactly 5 times, but `Retry(total=5)` counts RETRIES, not requests: the
initial attempt plus 5 retries makes 6 attempts before the adapter
raises the retry-exhausted error. -/
theorem retry_always_503_six_attempts :
    sessionRequest (("POST").data) (fun _ => 503) = SendOutcome.retryError 6 ∧
    sessionRequest (("POST").data) (fun _ => 503) ≠ SendOutcome.retryError 5 := by
  refine ⟨by decide, by decide⟩

/-- C5 (amended): responses with status in {429, 502, 503, 504} are
retried automatically for both POST and GET with exponential backoff
(`backoff_factor=1`); a server that always answers with a retryable
status is attempted exactly `total + 1 = 6` times, after which the
adapter raises the retry-exhausted `RetryError` — a type distinct from
the generic API error and not an unhandled crash (second: one retryable
response followed by a non-retryable one yields that response on the
second attempt). -/
theorem retry_policy_amended :
    (∀ (method : List Char) (statuses : Nat → Nat),
        (method = ("POST").data ∨ method = ("GET").data) →
        (∀ i, RETRY_STATUS_FORCELIST.contains (statuses i) = true) →
        sessionRequest method statuses = SendOutcome.retryError (RETRY_TOTAL + 1)) ∧
    (∀ (method : List Char) (s t : Nat),
        (method = ("POST").data ∨ method = ("GET").data) →
        RETRY_STATUS_FORCELIST.contains s = true →
        RETRY_STATUS_FORCELIST.contains t = false →
        sessionRequest method (fun i => if i = 0 then s else t)
          = SendOutcome.response t 2) := by
  constructor
  · intro method statuses hm hs
    rw [sessionRequest, retryLoop_exhausts method statuses hm hs RETRY_TOTAL 0]
    norm_num
  · intro method s t hm hs ht
    have hms : s ∈ RETRY_STATUS_FORCELIST := by simpa using hs
    have hmt : t ∉ RETRY_STATUS_FORCELIST := by simpa using ht
    rcases hm with h | h <;> subst h <;>
      simp [sessionRequest, RETRY_TOTAL, retryLoop, retryableStatus, hms, hmt]

theorem retry_policy_amended_witness :
    sessionRequest (("GET").data) (fun _ => 429) = SendOutcome.retryError (RETRY_TOTAL + 1) :=
  retry_policy_amended.1 (("GET").data) (fun _ => 429) (Or.inr rfl) (fun _ => rfl)

/-- C6: a 200 response whose body has a GraphQL `errors` array makes
`_execute_query` raise rather than return data, and the raised error is
the retryable rate-limit type exactly when the array holds a single
error whose message contains "429"; in every other case it is the
generic API error type. -/
theorem graphql_errors_classification (errs : List (List Char)) (body : Nat) :
    (∃ e, handleResponse { status := 200, gqlErrors := some errs, body := body }
      = Except.error e) ∧
    (handleResponse { status := 200, gqlErrors := some errs, body := body }
        = Except.error J1Error.apiRetryError
      ↔ errs.length = 1 ∧ pyContains ('4' :: '2' :: '9' :: []) (errs.headD []) = true) := by
  have hk : handleResponse { status := 200, gqlErrors := some errs, body := body }
      = (if errs.length = 1 && pyContains ('4' :: '2' :: '9' :: []) (errs.headD []) then
          Except.error J1Error.apiRetryError
        else Except.error J1Error.apiError) := rfl
  by_cases h1 : errs.length = 1
  · by_cases h2 : pyContains ('4' :: '2' :: '9' :: []) (errs.headD []) = true
    · rw [hk, if_pos (by rw [h2]; simp [h1])]
      exact ⟨⟨J1Error.apiRetryError, rfl⟩, iff_of_true rfl ⟨h1, h2⟩⟩
    · have h2f : pyContains ('4' :: '2' :: '9' :: []) (errs.headD []) = false := by
        rwa [Bool.not_eq_true] at h2
      rw [hk, if_neg (by rw [h2f]; simp)]
      refine ⟨⟨J1Error.apiError, rfl⟩, iff_of_false ?_ (by tauto)⟩
      intro hcontra
      simp at hcontra
  · rw [hk, if_neg (by simp [h1])]
    refine ⟨⟨J1Error.apiError, rfl⟩, iff_of_false ?_ (by tauto)⟩
    intro hcontra
    simp at hcontra

/-- C7: the deferred-download poll loop GETs the URL exactly while the
returned `status` equals IN_PROGRESS (sleeping 200 ms after each
IN_PROGRESS response, with no cap on the number of polls) and accepts
the first response with any other status: after `pre.length` IN_PROGRESS
responses the accepted response is reached with `pre.length + 1` GETs
and `pre.length` sleeps — for two IN_PROGRESS responses, exactly 3
polls. -/
theorem deferred_poll_until_terminal (pre : List DownloadResponse) (r : DownloadResponse)
    (rest : List DownloadResponse)
    (hpre : ∀ p ∈ pre, p.status = inProgressStatus)
    (hr : r.status ≠ inProgressStatus) :
    pollDownloadUrl (pre ++ r :: rest) = some (r, pre.length + 1, pre.length) := by
  revert hpre
  induction pre with
  | nil => intro _; simp [pollDownloadUrl, hr]
  | cons p pre2 ih =>
    intro hpre
    have hp : p.status = inProgressStatus := hpre p (by simp)
    have ih2 := ih (fun x hx => hpre x (by simp [hx]))
    simp [pollDownloadUrl, hp, ih2]

theorem deferred_poll_until_terminal_witness :
    pollDownloadUrl
        [{ status := inProgressStatus, data := [], cursor := none },
         { status := inProgressStatus, data := [], cursor := none },
         { status := ("COMPLETED").data, data := [5], cursor := none }]
      = some ({ status := ("COMPLETED").data, data := [5], cursor := none }, 3, 2) :=
  deferred_poll_until_terminal
    [{ status := inProgressStatus, data := [], cursor := none },
     { status := inProgressStatus, data := [], cursor := none }]
    { status := ("COMPLETED").data, data := [5], cursor := none } [] (by decide) (by decide)

theorem deferredLoop_scenario (pageSeq : List (List DownloadResponse))
    (ds : List (List Nat)) (h : DeferredScenario pageSeq ds) :
    ∀ (acc : List Nat) (posts : Nat),
      deferredLoop pageSeq acc posts = some (acc ++ ds.flatten, posts + pageSeq.length) := by
  induction h with
  | last polls f polled slept hpoll hcur =>
    intro acc posts
    simp [deferredLoop, hpoll, hcur]
  | cons polls f polled slept c rest ds hpoll hcur htail ih =>
    intro acc posts
    simp only [deferredLoop, hpoll, hcur]
    rw [ih (acc ++ f.data) (posts + 1)]
    simp only [List.append_assoc, List.flatten_cons, List.length_cons,
      Option.some.injEq, Prod.mk.injEq, true_and]
    omega

/-- C8: `query_with_deferred_response` returns the concatenation of the
data of all accepted terminal pages, whose length is the sum of those
pages' data lengths, for EVERY query text — an inline `LIMIT <n>` in the
query is never parsed and no truncation is applied in this engine. -/
theorem deferred_response_no_truncation (pageSeq : List (List DownloadResponse))
    (ds : List (List Nat)) (q : List Char) (h : DeferredScenario pageSeq ds) :
    queryWithDeferredResponse pageSeq q = some (ds.flatten, pageSeq.length) ∧
    ds.flatten.length = (ds.map List.length).sum := by
  constructor
  · simpa [queryWithDeferredResponse] using deferredLoop_scenario pageSeq ds h [] 0
  · simp [List.length_flatten]

theorem deferred_response_no_truncation_witness :
    queryWithDeferredResponse
        [[{ status := ("COMPLETED").data, data := [1, 2], cursor := some 7 }],
         [{ status := ("COMPLETED").data, data := [3], cursor := none }]]
        (("FIND X LIMIT 1").data)
      = some ([1, 2, 3], 2) ∧
    parseInlineLimit (("FIND X LIMIT 1").data) = some 1 ∧
    1 < ([1, 2, 3] : List Nat).length :=
  ⟨(deferred_response_no_truncation
      [[{ status := ("COMPLETED").data, data := [1, 2], cursor := some 7 }],
       [{ status := ("COMPLETED").data, data := [3], cursor := none }]]
      [[1, 2], [3]] (("FIND X LIMIT 1").data)
      (DeferredScenario.cons _
        { status := ("COMPLETED").data, data := [1, 2], cursor := some 7 } 1 0 7 _ _ rfl rfl
        (DeferredScenario.last _
          { status := ("COMPLETED").data, data := [3], cursor := none } 1 0 rfl rfl))).1,
    by decide, by decide⟩

/-- C9: constructing a client with a missing (`None`) or empty-string
account or token raises `JupiterOneClientError` (the client-error type,
distinct from the API errors) with no network interaction (`__init__`
issues no request — second-to-last group), and the validating property
setters raise the same error on any later empty assignment. -/
theorem client_requires_account_and_token :
    (∀ tok, (clientInit none tok).1 = Except.error J1Error.clientError) ∧
    (∀ tok, (clientInit (some []) tok).1 = Except.error J1Error.clientError) ∧
    (∀ (c : Char) (cs : List Char),
        (clientInit (some (c :: cs)) none).1 = Except.error J1Error.clientError) ∧
    (∀ (c : Char) (cs : List Char),
        (clientInit (some (c :: cs)) (some [])).1 = Except.error J1Error.clientError) ∧
    (∀ acct tok, (clientInit acct tok).2 = []) ∧
    setAccountAttr none = Except.error J1Error.clientError ∧
    setAccountAttr (some []) = Except.error J1Error.clientError ∧
    setTokenAttr none = Except.error J1Error.clientError ∧
    setTokenAttr (some []) = Except.error J1Error.clientError :=
  ⟨fun _ => rfl, fun _ => rfl, fun _ _ => rfl, fun _ _ => rfl, fun _ _ => rfl,
    rfl, rfl, rfl, rfl⟩

end JupiterOne
